import Mathlib

/-!
Verification of the asynchronous scroll/scan iterator
(`elasticsearch_async/helpers.py`, class `_Scan`).

The embedding is a shallow one: the mutable `_Scan` object becomes a
`ScanState` record threaded explicitly, and the remote collaborator (the
search client) is modelled inside the state as the list `pending` of the
responses the server will return to successive fetch calls, together with
the list `clears` of outcomes of successive scroll-clear calls.  Every
remote call and every logged warning is appended to the `trace` field, so
that the claims about call sequences become equalities of traces.
-/

namespace ScanModel

/-- A query body: a Python dict preserving insertion order, with opaque
(string) values.  Keys are strings; real Python dicts never hold duplicate
keys, so the association list below is always duplicate-free in practice. -/
abbrev Dict := List (String × String)

/-- Python `d[k] = v`: replace the value at `k` in place (keeping the key
order) when `k` is present, otherwise append the new pair at the end. -/
def dictSet (d : Dict) (k v : String) : Dict :=
  match d with
  | [] => [(k, v)]
  | (k', v') :: rest => if k' == k then (k, v) :: rest else (k', v') :: dictSet rest k v

/-- Lookup of a key in a query body (first match). -/
def dictGet (d : Dict) (k : String) : Option String :=
  match d with
  | [] => none
  | (k', v) :: rest => if k' == k then some v else dictGet rest k

/-- Shard-count metadata of a response (`_shards.successful`, `_shards.total`). -/
structure Shards where
  successful : Nat
  total : Nat
deriving Repr, DecidableEq

/-- One response of the remote collaborator, with the fields the iterator
reads: `resp.get('_scroll_id')` (absent field gives `none`),
`resp['_shards']`, and `resp['hits']['hits']` (an ordered batch of opaque
hit records of type `α`). -/
structure Response (α : Type) where
  scroll_id : Option String
  shards : Shards
  hits : List α
deriving Repr, DecidableEq

/-- Outcome of one `clear_scroll` remote call: success, an HTTP 404
("not found", which the source passes in `ignore=(404,)`), or any other
transport failure, which the client surfaces as a raised exception. -/
inductive ClearBehavior
  | ok
  | notFound
  | transportError
deriving Repr, DecidableEq

/-- Observable events of a run: the three remote primitives (with the
scroll token they were given, where applicable) and the logged warning
with its exact shard counts. -/
inductive Event
  | searchCall
  | scrollCall (token : String)
  | clearScrollCall (token : String)
  | warning (successful total : Nat)
deriving Repr, DecidableEq

/-- The data carried by a raised `ScanError`: the constructor call in the
source is `ScanError(self._scroll_id, 'Scroll request has only succeeded
on %d shards out of %d.' % counts)`. -/
structure ScanErrorData where
  scroll_id : Option String
  message : String
deriving Repr, DecidableEq

/-- The `ScanError` message format string, applied to the two counts. -/
def scanErrorMessage (successful total : Nat) : String :=
  "Scroll request has only succeeded on " ++ toString successful ++
    " shards out of " ++ toString total ++ "."

/-- State of one `_Scan` object, together with the modelled environment
(`pending`, `clears`) and the event trace. `hits` is the `deque`: the head
is the `popleft` end, `extend` appends at the tail. -/
structure ScanState (α : Type) where
  query : Dict
  raise_on_error : Bool
  clear_scroll : Bool
  hits : List α
  scroll_id : Option String
  pending : List (Response α)
  clears : List ClearBehavior
  trace : List Event
deriving Repr, DecidableEq

/-- The remote call a fetch issues, decided by `_fetch`'s `if
self._scroll_id is None` test: an initial search when no token is stored,
a scroll-continue with the stored token otherwise. -/
def fetchCallEvent : Option String → Event
  | none => Event.searchCall
  | some sid => Event.scrollCall sid

/-- The response a fetch receives once the server has no more data:
an empty batch with all shards successful and no scroll token. -/
def idleResponse (α : Type) : Response α :=
  { scroll_id := none, shards := { successful := 1, total := 1 }, hits := [] }

/-- `_Scan._fetch`.  Issues the remote call, records the returned scroll
token, inspects the shard counts (logging a warning and, when
`raise_on_error` is set, raising a `ScanError` that carries the
just-recorded token), and finally extends the buffer with the batch —
the extend is reached only when no error was raised. -/
def fetch {α : Type} (st : ScanState α) : Option ScanErrorData × ScanState α :=
  let resp := st.pending.headD (idleResponse α)
  let st1 : ScanState α :=
    { st with pending := st.pending.tail,
              trace := st.trace ++ [fetchCallEvent st.scroll_id],
              scroll_id := resp.scroll_id }
  if resp.shards.successful < resp.shards.total then
    let st2 : ScanState α :=
      { st1 with trace := st1.trace ++ [Event.warning resp.shards.successful resp.shards.total] }
    if st2.raise_on_error then
      (some { scroll_id := st2.scroll_id,
              message := scanErrorMessage resp.shards.successful resp.shards.total }, st2)
    else
      (none, { st2 with hits := st2.hits ++ resp.hits })
  else
    (none, { st1 with hits := st1.hits ++ resp.hits })

/-- `_Scan._clear`.  A no-op unless a truthy token is stored and
`clear_scroll` is set; otherwise issues the scroll-clear primitive with
the current token and `ignore=(404,)`.  The returned boolean is whether
the clear call raised (a transport failure other than the ignored 404). -/
def clearOp {α : Type} (st : ScanState α) : Bool × ScanState α :=
  match st.scroll_id with
  | some sid =>
      if sid ≠ "" ∧ st.clear_scroll = true then
        (st.clears.headD ClearBehavior.ok == ClearBehavior.transportError,
         { st with clears := st.clears.tail,
                   trace := st.trace ++ [Event.clearScrollCall sid] })
      else (false, st)
  | none => (false, st)

/-- Result of one produce-next (`__anext__`) call: a yielded hit, the
exhaustion signal (`StopAsyncIteration`), a raised `ScanError`, or an
unswallowed transport failure raised by the clear call itself. -/
inductive NextResult (α : Type)
  | yield (h : α)
  | stop
  | scanError (e : ScanErrorData)
  | transportError
deriving Repr, DecidableEq

/-- The tail of `__anext__`: `try: return self._hits.popleft() except
IndexError: await self._clear(); raise StopAsyncIteration`. -/
def popOrStop {α : Type} (st : ScanState α) : NextResult α × ScanState α :=
  match st.hits with
  | h :: rest => (NextResult.yield h, { st with hits := rest })
  | [] =>
      match clearOp st with
      | (true, st2) => (NextResult.transportError, st2)
      | (false, st2) => (NextResult.stop, st2)

/-- `_Scan.__anext__`.  When the buffer is empty, fetch first; a
`ScanError` from the fetch triggers `_clear` and is then re-raised
(an exception raised by `_clear` itself propagates instead, because the
source has no handler around it).  Then pop the front of the buffer or
signal exhaustion. -/
def anext {α : Type} (st : ScanState α) : NextResult α × ScanState α :=
  if st.hits.isEmpty then
    match fetch st with
    | (some e, st1) =>
        match clearOp st1 with
        | (true, st2) => (NextResult.transportError, st2)
        | (false, st2) => (NextResult.scanError e, st2)
    | (none, st1) => popOrStop st1
  else popOrStop st

/-- `_Scan.__init__` lines 70–73, tracking the caller's dict object
alongside the cursor's own.  `query or \x7b\x7d` takes the caller's dict
object when it is truthy (non-`None` and non-empty) and a fresh empty
dict otherwise; with `preserve_order` false the source then rebinds
`self.query` to a `.copy()` — a fresh object, so the subsequent
`self.query["sort"] = "_doc"` never writes through to the caller's dict.
Returns the cursor's query and the caller's dict after construction. -/
def mkQuery (preserve_order : Bool) (query : Option Dict) : Dict × Option Dict :=
  let selfQ : Dict :=
    match query with
    | some d => if d.isEmpty then [] else d
    | none => []
  let aliased : Bool :=
    match query with
    | some d => !d.isEmpty
    | none => false
  if preserve_order = false then
    let aliased := false
    let selfQ := dictSet selfQ "sort" "_doc"
    let callerAfter := if aliased then query.map (fun _ => selfQ) else query
    (selfQ, callerAfter)
  else
    (selfQ, query)

/-- `_Scan.__init__`: build the initial state.  No remote call is issued
(the trace starts empty and `pending` is untouched); the buffer starts
empty and no scroll token is stored. -/
def scanInit (α : Type) (query : Option Dict)
    (raise_on_error preserve_order clear_scroll : Bool)
    (pending : List (Response α)) (clears : List ClearBehavior) : ScanState α :=
  { query := (mkQuery preserve_order query).1,
    raise_on_error := raise_on_error,
    clear_scroll := clear_scroll,
    hits := [],
    scroll_id := none,
    pending := pending,
    clears := clears,
    trace := [] }

/-- Driving the iterator: repeat `__anext__`, collecting yielded hits,
until a terminal result (exhaustion or an error) or until the fuel runs
out (`none`). -/
def drive {α : Type} (st : ScanState α) : Nat → Option (List α × NextResult α × ScanState α)
  | 0 => none
  | n + 1 =>
      match anext st with
      | (NextResult.yield h, st1) =>
          (drive st1 n).map (fun r => (h :: r.1, r.2.1, r.2.2))
      | (r, st1) => some ([], r, st1)

/-- The events one fetch adds to the trace: the remote call (chosen by the
stored token) followed by the warning exactly when the response reports
fewer successful than total shards. -/
def respEvents {α : Type} (tok : Option String) (r : Response α) : List Event :=
  fetchCallEvent tok ::
    (if r.shards.successful < r.shards.total
     then [Event.warning r.shards.successful r.shards.total] else [])

/-- The trace of a sequence of fetches: each fetch's call is chosen by the
token recorded from the previous response. -/
def runTrace {α : Type} (tok : Option String) : List (Response α) → List Event
  | [] => []
  | r :: rs => respEvents tok r ++ runTrace r.scroll_id rs

/-- The events a release attempt adds to the trace: one clear-scroll call
when a truthy token is stored and clear-on-finish is set, nothing
otherwise. -/
def clearTrace (tok : Option String) (cs : Bool) : List Event :=
  match tok with
  | some sid => if sid ≠ "" ∧ cs = true then [Event.clearScrollCall sid] else []
  | none => []

/-- A response with all shards successful carrying the given scroll token
and batch. -/
def mkOkResp {α : Type} (sid : String) (b : List α) : Response α :=
  { scroll_id := some sid, shards := { successful := 5, total := 5 }, hits := b }

/-- Concrete cursor mid-scan, about to fetch a partially-failed response
whose batch carries one hit, with raise-on-shard-failure set. -/
def failedBatchState : ScanState Nat :=
  { query := [], raise_on_error := true, clear_scroll := true, hits := [],
    scroll_id := some "t0",
    pending := [{ scroll_id := some "t1", shards := { successful := 4, total := 5 },
                  hits := [7] }],
    clears := [], trace := [] }

/-- Concrete cursor mid-scan, about to fetch a partially-failed empty
response, where the subsequent clear call raises a transport failure. -/
def failingClearState : ScanState Nat :=
  { query := [], raise_on_error := true, clear_scroll := true, hits := [],
    scroll_id := some "t0",
    pending := [{ scroll_id := some "t1", shards := { successful := 4, total := 5 },
                  hits := [] }],
    clears := [ClearBehavior.transportError], trace := [] }

/-- Concrete partially-failed response carrying two hits. -/
def degradedResp1 : Response Nat :=
  { scroll_id := some "u1", shards := { successful := 4, total := 5 }, hits := [1, 2] }

/-- Concrete partially-failed terminal response with an empty batch. -/
def degradedResp2 : Response Nat :=
  { scroll_id := some "u2", shards := { successful := 4, total := 5 }, hits := [] }

/-- Concrete freshly-constructed cursor over a two-hit batch followed by
two empty responses, used to observe behaviour after exhaustion. -/
def exhaustionDemoInit : ScanState Nat :=
  scanInit Nat none true false true
    [mkOkResp "s1" [1, 2], mkOkResp "s2" [], mkOkResp "s3" []] []

/-- The cursor state right after `exhaustionDemoInit` has signalled
exhaustion (three produce-next calls: two yields, one stop). -/
def exhaustionDemoAfterStop : ScanState Nat :=
  ((drive exhaustionDemoInit 3).getD ([], NextResult.stop, exhaustionDemoInit)).2.2

/-- Concrete freshly-constructed cursor with no pending responses, no
token ever issued. -/
def freshClearState : ScanState Nat := scanInit Nat none true false true [] []

/-- Concrete cursor whose next response omits the scroll token. -/
def tokenlessState : ScanState Nat :=
  { query := [], raise_on_error := true, clear_scroll := true, hits := [],
    scroll_id := some "t0",
    pending := [{ scroll_id := none, shards := { successful := 5, total := 5 },
                  hits := [9] }],
    clears := [], trace := [] }

/-! ### Step lemmas -/

theorem fetch_noraise {α : Type} (st : ScanState α) (r : Response α) (rest : List (Response α))
    (hp : st.pending = r :: rest)
    (hnr : r.shards.successful < r.shards.total → st.raise_on_error = false) :
    fetch st = (none,
      { st with pending := rest,
                scroll_id := r.scroll_id,
                hits := st.hits ++ r.hits,
                trace := st.trace ++ respEvents st.scroll_id r }) := by
  by_cases hf : r.shards.successful < r.shards.total
  · have hro := hnr hf
    simp [fetch, hp, hf, hro, respEvents]
  · simp [fetch, hp, hf, respEvents]

theorem fetch_raise {α : Type} (st : ScanState α) (r : Response α) (rest : List (Response α))
    (hp : st.pending = r :: rest)
    (hf : r.shards.successful < r.shards.total)
    (hro : st.raise_on_error = true) :
    fetch st = (some { scroll_id := r.scroll_id,
                       message := scanErrorMessage r.shards.successful r.shards.total },
      { st with pending := rest,
                scroll_id := r.scroll_id,
                trace := st.trace ++ respEvents st.scroll_id r }) := by
  simp [fetch, hp, hf, hro, respEvents]

theorem anext_yield {α : Type} (st : ScanState α) (h : α) (rest : List α)
    (hh : st.hits = h :: rest) :
    anext st = (NextResult.yield h, { st with hits := rest }) := by
  simp [anext, hh, popOrStop]

theorem clearOp_no_raise {α : Type} (st : ScanState α)
    (hc : st.clears.headD ClearBehavior.ok ≠ ClearBehavior.transportError) :
    (clearOp st).1 = false
      ∧ (clearOp st).2.trace = st.trace ++ clearTrace st.scroll_id st.clear_scroll
      ∧ (clearOp st).2.scroll_id = st.scroll_id
      ∧ (clearOp st).2.pending = st.pending
      ∧ (clearOp st).2.hits = st.hits
      ∧ (clearOp st).2.query = st.query
      ∧ (clearOp st).2.raise_on_error = st.raise_on_error
      ∧ (clearOp st).2.clear_scroll = st.clear_scroll := by
  have hb : (st.clears.headD ClearBehavior.ok == ClearBehavior.transportError) = false :=
    beq_eq_false_iff_ne.mpr hc
  match hsid : st.scroll_id with
  | none => simp [clearOp, hsid, clearTrace]
  | some sid =>
      by_cases hcs : sid ≠ "" ∧ st.clear_scroll = true
      · simp [clearOp, hsid, hcs, hb, clearTrace]
        simpa [List.headD_eq_head?] using hc
      · simp [clearOp, hsid, hcs, clearTrace]

/-- One produce-next call from an empty buffer whose fetch returns an
empty batch: the fetch and then the release attempt are performed, and
the exhaustion signal is delivered. -/
theorem anext_terminal {α : Type} (st : ScanState α) (r : Response α) (rest : List (Response α))
    (hbuf : st.hits = [])
    (hp : st.pending = r :: rest)
    (hEmpty : r.hits = [])
    (hnr : r.shards.successful < r.shards.total → st.raise_on_error = false)
    (hclear : st.clears.headD ClearBehavior.ok ≠ ClearBehavior.transportError) :
    ∃ st', anext st = (NextResult.stop, st')
      ∧ st'.trace = st.trace ++ respEvents st.scroll_id r
          ++ clearTrace r.scroll_id st.clear_scroll
      ∧ st'.scroll_id = r.scroll_id
      ∧ st'.pending = rest
      ∧ st'.hits = []
      ∧ st'.query = st.query
      ∧ st'.raise_on_error = st.raise_on_error
      ∧ st'.clear_scroll = st.clear_scroll := by
  have hf := fetch_noraise st r rest hp hnr
  set st1 : ScanState α :=
    { st with pending := rest, scroll_id := r.scroll_id,
              hits := st.hits ++ r.hits,
              trace := st.trace ++ respEvents st.scroll_id r } with hst1
  obtain ⟨hb, htr, hsid2, hpend2, hhits2, hq2, hro2, hcs2⟩ :=
    clearOp_no_raise st1 (by rw [hst1]; exact hclear)
  have h1 : st1.hits = [] := by rw [hst1]; simp [hbuf, hEmpty]
  rcases hcc : clearOp st1 with ⟨b, st2⟩
  rw [hcc] at hb htr hsid2 hpend2 hhits2 hq2 hro2 hcs2
  simp only at hb htr hsid2 hpend2 hhits2 hq2 hro2 hcs2
  subst hb
  refine ⟨st2, ?_, htr, hsid2, hpend2, ?_, hq2, hro2, hcs2⟩
  · simp only [anext, hbuf, List.isEmpty_nil, if_true, hf, popOrStop, hEmpty,
      List.append_nil, hcc]
  · rw [hhits2, hbuf, hEmpty]
    rfl

/-- Driving a cursor whose buffer holds `l` first yields all of `l`,
without touching the server, and then continues as the cursor with an
emptied buffer. -/
theorem drive_buffer {α : Type} (l : List α) (st : ScanState α) (n : Nat)
    (hh : st.hits = l) :
    drive st (l.length + n) =
      (drive { st with hits := [] } n).map (fun r => (l ++ r.1, r.2.1, r.2.2)) := by
  induction l generalizing st with
  | nil =>
      have hid : ({ st with hits := [] } : ScanState α) = st := by rw [← hh]
      rw [hid]
      simp
  | cons a tl ih =>
      have harith : (a :: tl).length + n = (tl.length + n) + 1 := by
        simp [List.length_cons]
        omega
      rw [harith]
      have hy : anext st = (NextResult.yield a, { st with hits := tl }) :=
        anext_yield st a tl hh
      simp only [drive, hy]
      rw [ih { st with hits := tl } rfl]
      cases drive { st with hits := [] } n with
      | none => rfl
      | some r => simp

/-- One driving step that yields a hit. -/
theorem drive_yield {α : Type} (st st1 : ScanState α) (h : α) (n : Nat)
    (ha : anext st = (NextResult.yield h, st1)) :
    drive st (n + 1) = (drive st1 n).map (fun r => (h :: r.1, r.2.1, r.2.2)) := by
  rw [drive, ha]

/-- A full successful run: from an empty buffer, driving through responses
`rs` (each with a non-empty batch, none allowed to raise) followed by the
terminal empty-batch response `rE` yields the concatenation of the batches
in fetch order, performs one fetch per response plus the release attempt,
and ends with the exhaustion signal. -/
theorem drive_run {α : Type} (rs : List (Response α)) (rE : Response α) (st : ScanState α)
    (hnr : ∀ r ∈ rs ++ [rE], r.shards.successful < r.shards.total → st.raise_on_error = false)
    (hne : ∀ r ∈ rs, r.hits ≠ [])
    (hEempty : rE.hits = [])
    (hbuf : st.hits = [])
    (hpend : st.pending = rs ++ [rE])
    (hclear : st.clears.headD ClearBehavior.ok ≠ ClearBehavior.transportError) :
    ∃ st', drive st ((rs.map Response.hits).flatten.length + 1) =
        some ((rs.map Response.hits).flatten, NextResult.stop, st')
      ∧ st'.trace = st.trace ++ runTrace st.scroll_id (rs ++ [rE])
          ++ clearTrace rE.scroll_id st.clear_scroll
      ∧ st'.scroll_id = rE.scroll_id
      ∧ st'.clear_scroll = st.clear_scroll := by
  induction rs generalizing st with
  | nil =>
      obtain ⟨st', ha, htr, hsid, hpend', hhits', hq', hro', hcs'⟩ :=
        anext_terminal st rE [] hbuf (by simpa using hpend) hEempty
          (fun h => hnr rE (by simp) h) hclear
      refine ⟨st', ?_, ?_, hsid, hcs'⟩
      · simp [drive, ha]
      · rw [htr]
        simp [runTrace]
  | cons r rest ih =>
      obtain ⟨a, tl, hr⟩ : ∃ a tl, r.hits = a :: tl := by
        cases hh : r.hits with
        | nil => exact absurd hh (hne r (List.mem_cons_self r rest))
        | cons a tl => exact ⟨a, tl, rfl⟩
      have hf := fetch_noraise st r (rest ++ [rE]) (by simpa using hpend)
        (fun h => hnr r (List.mem_cons_self r (rest ++ [rE])) h)
      have ha : anext st = (NextResult.yield a,
          { st with pending := rest ++ [rE], scroll_id := r.scroll_id,
                    hits := tl, trace := st.trace ++ respEvents st.scroll_id r }) := by
        simp only [anext, hbuf, List.isEmpty_nil, if_true, hf, popOrStop, hr,
          List.nil_append]
      have hfuel : (((r :: rest).map Response.hits).flatten).length + 1
          = (tl.length + ((rest.map Response.hits).flatten.length + 1)) + 1 := by
        simp [hr]
        omega
      rw [hfuel, drive_yield st _ a _ ha]
      rw [drive_buffer tl
        { st with pending := rest ++ [rE], scroll_id := r.scroll_id,
                  hits := tl, trace := st.trace ++ respEvents st.scroll_id r }
        ((rest.map Response.hits).flatten.length + 1) rfl]
      obtain ⟨st'', hdr, htr'', hsid'', hcs''⟩ := ih
        { st with pending := rest ++ [rE], scroll_id := r.scroll_id,
                  hits := ([] : List α), trace := st.trace ++ respEvents st.scroll_id r }
        (fun r' hm => hnr r' (List.mem_cons_of_mem r hm))
        (fun r' hm => hne r' (List.mem_cons_of_mem r hm))
        rfl rfl hclear
      rw [hdr]
      refine ⟨st'', ?_, ?_, hsid'', by simpa using hcs''⟩
      · simp [hr]
      · rw [htr'']
        simp [runTrace, List.append_assoc]

/-! ### Dictionary lemmas -/

theorem dictGet_dictSet_self (d : Dict) (k v : String) :
    dictGet (dictSet d k v) k = some v := by
  induction d with
  | nil => simp [dictSet, dictGet]
  | cons p rest ih =>
      by_cases hk : p.1 == k
      · simp [dictSet, dictGet, hk]
      · simp [dictSet, dictGet, hk, ih]

theorem dictGet_dictSet_ne (d : Dict) (k v k' : String) (h : k' ≠ k) :
    dictGet (dictSet d k v) k' = dictGet d k' := by
  have hkk : (k == k') = false := by
    simp [BEq.comm]
    exact fun he => h he.symm
  induction d with
  | nil => simp [dictSet, dictGet, hkk]
  | cons p rest ih =>
      by_cases hk : p.1 == k
      · have hp : p.1 = k := by simpa using hk
        have hp' : (p.1 == k') = false := by
          simp [hp]
          exact fun he => h he.symm
        simp [dictSet, dictGet, hk, hkk, hp']
      · simp [dictSet, dictGet, hk, ih]

/-- Every fetch records the fetched response's scroll token, whatever the
shard counts and the raise flag. -/
theorem fetch_scroll_id_any {α : Type} (st : ScanState α) :
    ((fetch st).2).scroll_id = (st.pending.headD (idleResponse α)).scroll_id := by
  by_cases hf : (st.pending.headD (idleResponse α)).shards.successful
      < (st.pending.headD (idleResponse α)).shards.total
  · rw [List.headD_eq_head?] at hf
    cases hro : st.raise_on_error
    · simp [fetch, hf, hro]
    · simp [fetch, hf, hro]
  · rw [List.headD_eq_head?] at hf
    simp [fetch, hf]

/-- Every fetch appends exactly its remote call (chosen by the stored
token) and, when shards failed, the warning — whatever the raise flag. -/
theorem fetch_trace_any {α : Type} (st : ScanState α) :
    ((fetch st).2).trace
      = st.trace ++ respEvents st.scroll_id (st.pending.headD (idleResponse α)) := by
  by_cases hf : (st.pending.headD (idleResponse α)).shards.successful
      < (st.pending.headD (idleResponse α)).shards.total
  · rw [List.headD_eq_head?] at hf
    cases hro : st.raise_on_error
    · simp [fetch, hf, hro, respEvents, List.headD_eq_head?]
    · simp [fetch, hf, hro, respEvents, List.headD_eq_head?]
  · rw [List.headD_eq_head?] at hf
    simp [fetch, hf, respEvents, List.headD_eq_head?]

/-- A fetch leaves the raise flag, the clear flag, the clear outcomes and
the query untouched, and pops one pending response. -/
theorem fetch_frame {α : Type} (st : ScanState α) :
    ((fetch st).2).raise_on_error = st.raise_on_error
    ∧ ((fetch st).2).clear_scroll = st.clear_scroll
    ∧ ((fetch st).2).clears = st.clears
    ∧ ((fetch st).2).pending = st.pending.tail := by
  by_cases hf : (st.pending.headD (idleResponse α)).shards.successful
      < (st.pending.headD (idleResponse α)).shards.total
  · rw [List.headD_eq_head?] at hf
    cases hro : st.raise_on_error
    · simp [fetch, hf, hro]
    · simp [fetch, hf, hro]
  · rw [List.headD_eq_head?] at hf
    simp [fetch, hf]

/-- The release attempt appends exactly its clear call (or nothing),
whatever the outcome of the call. -/
theorem clearOp_trace {α : Type} (st : ScanState α) :
    (clearOp st).2.trace = st.trace ++ clearTrace st.scroll_id st.clear_scroll := by
  match hsid : st.scroll_id with
  | none => simp [clearOp, hsid, clearTrace]
  | some sid =>
      by_cases hcs : sid ≠ "" ∧ st.clear_scroll = true
      · simp [clearOp, hsid, hcs, clearTrace]
      · simp [clearOp, hsid, hcs, clearTrace]

/-- Release is the identity when no token is stored. -/
theorem clearOp_none {α : Type} (st : ScanState α) (h : st.scroll_id = none) :
    clearOp st = (false, st) := by
  simp [clearOp, h]

/-- Release is the identity when clear-on-finish is unset. -/
theorem clearOp_cs_false {α : Type} (st : ScanState α) (h : st.clear_scroll = false) :
    clearOp st = (false, st) := by
  match hsid : st.scroll_id with
  | none => simp [clearOp, hsid]
  | some sid => simp [clearOp, hsid, h]

/-- The pop-or-stop tail of produce-next never raises a `ScanError`. -/
theorem popOrStop_no_scanError {α : Type} (st : ScanState α) :
    ∀ e, (popOrStop st).1 ≠ NextResult.scanError e := by
  intro e
  match hh : st.hits with
  | h :: rest => simp [popOrStop, hh]
  | [] =>
      rcases hcc : clearOp st with ⟨b, st2⟩
      cases b <;> simp [popOrStop, hh, hcc]

/-- A produce-next whose fetch cannot raise never raises a `ScanError`. -/
theorem anext_no_scanError {α : Type} (st : ScanState α) (r : Response α)
    (rest : List (Response α)) (hp : st.pending = r :: rest)
    (hnr : r.shards.successful < r.shards.total → st.raise_on_error = false) :
    ∀ e, (anext st).1 ≠ NextResult.scanError e := by
  intro e
  by_cases hb : st.hits.isEmpty
  · have hf := fetch_noraise st r rest hp hnr
    have := popOrStop_no_scanError
      (α := α) { st with pending := rest, scroll_id := r.scroll_id,
                         hits := st.hits ++ r.hits,
                         trace := st.trace ++ respEvents st.scroll_id r } e
    simpa [anext, hb, hf] using this
  · have := popOrStop_no_scanError st e
    simpa [anext, hb] using this

/-- Any produce-next from an empty buffer extends the trace by the fetch's
events (call, then warning when shards failed) followed by some suffix. -/
theorem anext_trace_fetch {α : Type} (st : ScanState α) (hbuf : st.hits = []) :
    ∃ tl, (anext st).2.trace
      = st.trace ++ respEvents st.scroll_id (st.pending.headD (idleResponse α)) ++ tl := by
  have htr := fetch_trace_any st
  rcases hf : fetch st with ⟨oe, st1⟩
  rw [hf] at htr
  simp only at htr
  cases oe with
  | some e =>
      refine ⟨clearTrace st1.scroll_id st1.clear_scroll, ?_⟩
      have h2 : (anext st).2 = (clearOp st1).2 := by
        rcases hcc : clearOp st1 with ⟨b, st2⟩
        cases b <;> simp [anext, hbuf, hf, hcc]
      rw [h2, clearOp_trace, htr]
  | none =>
      match hh : st1.hits with
      | h :: rest =>
          refine ⟨[], ?_⟩
          simp [anext, hbuf, hf, popOrStop, hh, htr]
      | [] =>
          refine ⟨clearTrace st1.scroll_id st1.clear_scroll, ?_⟩
          have h2 : (anext st).2 = (clearOp st1).2 := by
            rcases hcc : clearOp st1 with ⟨b, st2⟩
            cases b <;> simp [anext, hbuf, hf, popOrStop, hh, hcc]
          rw [h2, clearOp_trace, htr]

/-- The warning emitted by the terminal response's fetch belongs to the
run trace. -/
theorem warning_mem_runTrace {α : Type} (tok : Option String) (rs : List (Response α))
    (rE : Response α) (hf : rE.shards.successful < rE.shards.total) :
    Event.warning rE.shards.successful rE.shards.total ∈ runTrace tok (rs ++ [rE]) := by
  induction rs generalizing tok with
  | nil => simp [runTrace, respEvents, hf]
  | cons r rest ih =>
      simp only [List.cons_append, runTrace, List.mem_append]
      exact Or.inr (ih r.scroll_id)

/-! ### Helpers for whole-run call-sequence statements -/

theorem zipResp_map_hits {α : Type} (sids : List String) (batches : List (List α))
    (hlen : sids.length = batches.length) :
    (List.zipWith (mkOkResp (α := α)) sids batches).map Response.hits = batches := by
  induction sids generalizing batches with
  | nil =>
      cases batches with
      | nil => simp
      | cons b bs => simp at hlen
  | cons s ss ih =>
      cases batches with
      | nil => simp at hlen
      | cons b bs =>
          simp only [List.zipWith_cons_cons, List.map_cons, mkOkResp]
          rw [ih bs (by simpa using hlen)]

theorem zipResp_ok {α : Type} (sids : List String) (batches : List (List α)) :
    ∀ r ∈ List.zipWith (mkOkResp (α := α)) sids batches,
      ¬ r.shards.successful < r.shards.total := by
  induction sids generalizing batches with
  | nil => simp
  | cons s ss ih =>
      cases batches with
      | nil => simp
      | cons b bs =>
          intro r hr
          rcases (List.mem_cons).1 hr with h | h
          · subst h; simp [mkOkResp]
          · exact ih bs r h

theorem zipResp_ne {α : Type} (sids : List String) (batches : List (List α))
    (hne : ∀ b ∈ batches, b ≠ []) :
    ∀ r ∈ List.zipWith (mkOkResp (α := α)) sids batches, r.hits ≠ [] := by
  induction sids generalizing batches with
  | nil => simp
  | cons s ss ih =>
      cases batches with
      | nil => simp
      | cons b bs =>
          intro r hr
          rcases (List.mem_cons).1 hr with h | h
          · subst h
            simpa [mkOkResp] using hne b (by simp)
          · exact ih bs (fun b' hb' => hne b' (List.mem_cons_of_mem b hb')) r h

theorem runTrace_zip {α : Type} (tok : Option String) (sids : List String)
    (batches : List (List α)) (rE : Response α)
    (hlen : sids.length = batches.length)
    (hE : ¬ rE.shards.successful < rE.shards.total) :
    runTrace tok (List.zipWith (mkOkResp (α := α)) sids batches ++ [rE]) =
      fetchCallEvent tok :: sids.map Event.scrollCall := by
  induction sids generalizing batches tok with
  | nil =>
      cases batches with
      | nil => simp [runTrace, respEvents, hE]
      | cons b bs => simp at hlen
  | cons s ss ih =>
      cases batches with
      | nil => simp at hlen
      | cons b bs =>
          have ih' := ih (some s) bs (by simpa using hlen)
          simp [runTrace, respEvents, mkOkResp, fetchCallEvent, ih']

/-! ### Claim theorems -/

/-- C4: for every sequence of fetch responses with all shards successful
(non-empty batches followed by the terminal empty response), fully
consuming the cursor yields exactly the batches' records, equal as a
sequence to the concatenation of the batches in fetch order — FIFO within
and across batches — whatever the construction flags. -/
theorem scan_yields_batch_concatenation {α : Type} (query : Option Dict)
    (ro po cs : Bool) (rs : List (Response α)) (rE : Response α)
    (clears : List ClearBehavior)
    (hok : ∀ r ∈ rs, ¬ r.shards.successful < r.shards.total)
    (hEok : ¬ rE.shards.successful < rE.shards.total)
    (hne : ∀ r ∈ rs, r.hits ≠ [])
    (hEempty : rE.hits = [])
    (hclear : clears.headD ClearBehavior.ok ≠ ClearBehavior.transportError) :
    ∃ st', drive (scanInit α query ro po cs (rs ++ [rE]) clears)
        ((rs.map Response.hits).flatten.length + 1)
      = some ((rs.map Response.hits).flatten, NextResult.stop, st') := by
  obtain ⟨st', hd, _, _, _⟩ :=
    drive_run rs rE (scanInit α query ro po cs (rs ++ [rE]) clears)
      (by
        intro r hm hfail
        rcases (List.mem_append).1 hm with h | h
        · exact absurd hfail (hok r h)
        · simp only [List.mem_singleton] at h
          subst h
          exact absurd hfail hEok)
      hne hEempty rfl rfl hclear
  exact ⟨st', hd⟩

theorem scan_yields_batch_concatenation_witness :
    ∃ st', drive (scanInit Nat none true false true
        ([mkOkResp "s1" [1, 2], mkOkResp "s2" [3]] ++ [mkOkResp "s3" []]) [])
        ((([mkOkResp "s1" [1, 2], mkOkResp "s2" [3]] : List (Response Nat)).map
            Response.hits).flatten.length + 1)
      = some ((([mkOkResp "s1" [1, 2], mkOkResp "s2" [3]] : List (Response Nat)).map
            Response.hits).flatten, NextResult.stop, st') :=
  scan_yields_batch_concatenation none true false true
    [mkOkResp "s1" [1, 2], mkOkResp "s2" [3]] (mkOkResp "s3" []) []
    (by decide) (by decide) (by decide) (by decide) (by decide)

/-- C5: a full scan issues exactly one initial search, then one
scroll-continue per batch (the last of which returns zero hits), then —
exactly when clear-on-finish is set — one clear-scroll, and no other
remote calls: the trace is exactly that sequence. -/
theorem scan_call_sequence {α : Type} (query : Option Dict) (po cs : Bool)
    (batches : List (List α)) (sids : List String) (sidE : String)
    (clears : List ClearBehavior)
    (hlen : sids.length = batches.length)
    (hne : ∀ b ∈ batches, b ≠ [])
    (hsidE : sidE ≠ "")
    (hclear : clears.headD ClearBehavior.ok ≠ ClearBehavior.transportError) :
    ∃ st', drive (scanInit α query true po cs
          (List.zipWith mkOkResp sids batches ++ [mkOkResp sidE []]) clears)
        (batches.flatten.length + 1)
      = some (batches.flatten, NextResult.stop, st')
      ∧ st'.trace = Event.searchCall :: sids.map Event.scrollCall
          ++ (if cs = true then [Event.clearScrollCall sidE] else []) := by
  obtain ⟨st', hd, htr, _, _⟩ :=
    drive_run (List.zipWith mkOkResp sids batches) (mkOkResp sidE [])
      (scanInit α query true po cs
        (List.zipWith mkOkResp sids batches ++ [mkOkResp sidE []]) clears)
      (by
        intro r hm hfail
        rcases (List.mem_append).1 hm with h | h
        · exact absurd hfail (zipResp_ok sids batches r h)
        · simp only [List.mem_singleton] at h
          subst h
          simp [mkOkResp] at hfail)
      (zipResp_ne sids batches hne) rfl rfl rfl hclear
  rw [zipResp_map_hits sids batches hlen] at hd
  refine ⟨st', hd, ?_⟩
  rw [htr]
  have hrt := runTrace_zip (α := α) none sids batches (mkOkResp sidE [])
    hlen (by simp [mkOkResp])
  simp only [scanInit] at hrt ⊢
  rw [hrt]
  simp [clearTrace, mkOkResp, fetchCallEvent, hsidE]

theorem scan_call_sequence_witness :
    ∃ st', drive (scanInit Nat none true false true
          (List.zipWith mkOkResp ["s1", "s2"] [[1, 2], [3]] ++ [mkOkResp "s3" []]) [])
        (([[1, 2], [3]] : List (List Nat)).flatten.length + 1)
      = some (([[1, 2], [3]] : List (List Nat)).flatten, NextResult.stop, st')
      ∧ st'.trace = Event.searchCall :: (["s1", "s2"].map Event.scrollCall)
          ++ (if true = true then [Event.clearScrollCall "s3"] else []) :=
  scan_call_sequence none false true [[1, 2], [3]] ["s1", "s2"] "s3" []
    (by decide) (by decide) (by decide) (by decide)

/-- C7: with raise-on-shard-failure false and every fetch reporting
failing shards, the scan still yields the full result set (the
concatenation of all batches), the shard-failure warning is logged, and
the session is released at natural exhaustion. -/
theorem scan_degraded_still_complete {α : Type} (query : Option Dict) (po : Bool)
    (rs : List (Response α)) (rE : Response α) (sidE : String)
    (clears : List ClearBehavior)
    (hfail : ∀ r ∈ rs ++ [rE], r.shards.successful < r.shards.total)
    (hne : ∀ r ∈ rs, r.hits ≠ [])
    (hEempty : rE.hits = [])
    (hEsid : rE.scroll_id = some sidE)
    (hsidE : sidE ≠ "")
    (hclear : clears.headD ClearBehavior.ok ≠ ClearBehavior.transportError) :
    ∃ st', drive (scanInit α query false po true (rs ++ [rE]) clears)
        ((rs.map Response.hits).flatten.length + 1)
      = some ((rs.map Response.hits).flatten, NextResult.stop, st')
      ∧ Event.warning rE.shards.successful rE.shards.total ∈ st'.trace
      ∧ Event.clearScrollCall sidE ∈ st'.trace := by
  obtain ⟨st', hd, htr, _, _⟩ :=
    drive_run rs rE (scanInit α query false po true (rs ++ [rE]) clears)
      (fun _ _ _ => rfl) hne hEempty rfl rfl hclear
  refine ⟨st', hd, ?_, ?_⟩
  · rw [htr]
    simp only [scanInit, List.mem_append]
    exact Or.inl (Or.inr (warning_mem_runTrace none rs rE (hfail rE (by simp))))
  · rw [htr]
    simp only [scanInit, List.mem_append]
    refine Or.inr ?_
    simp [clearTrace, hEsid, hsidE]

theorem scan_degraded_still_complete_witness :
    ∃ st', drive (scanInit Nat none false false true ([degradedResp1] ++ [degradedResp2]) [])
        ((([degradedResp1] : List (Response Nat)).map Response.hits).flatten.length + 1)
      = some ((([degradedResp1] : List (Response Nat)).map Response.hits).flatten,
          NextResult.stop, st')
      ∧ Event.warning degradedResp2.shards.successful degradedResp2.shards.total ∈ st'.trace
      ∧ Event.clearScrollCall "u2" ∈ st'.trace :=
  scan_degraded_still_complete none false [degradedResp1] degradedResp2 "u2" []
    (by decide) (by decide) (by decide) (by decide) (by decide) (by decide)

/-- C6: produce-next raises a `ScanError` exactly when the fetched
response reports fewer successful than total shards and the raise flag is
set; the error carries the just-recorded scroll token and the message
stating the exact counts; the warning with those counts is logged
whenever shards fail, regardless of the flag; and the release attempt is
made (its trace events appear) before the error surfaces. -/
theorem scan_error_contract {α : Type} (st : ScanState α) (r : Response α)
    (rest : List (Response α))
    (hp : st.pending = r :: rest) (hbuf : st.hits = []) :
    (r.shards.successful < r.shards.total → st.raise_on_error = true →
      st.clears.headD ClearBehavior.ok ≠ ClearBehavior.transportError →
      (anext st).1 = NextResult.scanError
          { scroll_id := r.scroll_id,
            message := scanErrorMessage r.shards.successful r.shards.total }
        ∧ (anext st).2.trace = st.trace ++ respEvents st.scroll_id r
            ++ clearTrace r.scroll_id st.clear_scroll)
    ∧ (r.shards.successful < r.shards.total →
        Event.warning r.shards.successful r.shards.total ∈ (anext st).2.trace)
    ∧ (¬ r.shards.successful < r.shards.total →
        ∀ e, (anext st).1 ≠ NextResult.scanError e)
    ∧ (st.raise_on_error = false →
        ∀ e, (anext st).1 ≠ NextResult.scanError e) := by
  refine ⟨?_, ?_, ?_, ?_⟩
  · intro hfail hro hclear
    have hf := fetch_raise st r rest hp hfail hro
    set st1 : ScanState α :=
      { st with pending := rest, scroll_id := r.scroll_id,
                trace := st.trace ++ respEvents st.scroll_id r } with hst1
    obtain ⟨hb, htr, _, _, _, _, _, _⟩ :=
      clearOp_no_raise st1 (by rw [hst1]; exact hclear)
    rcases hcc : clearOp st1 with ⟨b, st2⟩
    rw [hcc] at hb htr
    simp only at hb htr
    subst hb
    constructor
    · simp [anext, hbuf, hf, hcc]
    · have h2 : (anext st).2 = st2 := by simp [anext, hbuf, hf, hcc]
      rw [h2]
      exact htr
  · intro hfail
    obtain ⟨tl, htl⟩ := anext_trace_fetch st hbuf
    rw [htl, hp]
    simp [respEvents, hfail]
  · intro hok
    exact anext_no_scanError st r rest hp (fun h => absurd h hok)
  · intro hro
    exact anext_no_scanError st r rest hp (fun _ => hro)

theorem scan_error_contract_witness :
    (anext failedBatchState).1 = NextResult.scanError
      { scroll_id := some "t1", message := scanErrorMessage 4 5 } := by
  have h := scan_error_contract failedBatchState
    { scroll_id := some "t1", shards := { successful := 4, total := 5 }, hits := [7] }
    [] rfl rfl
  exact (h.1 (by decide) rfl (by decide)).1

/-- C9: after every fetch the stored scroll token equals the token of
that fetch's response; that newest token is the one the next
scroll-continue is called with and the one the scroll-clear is called
with, even when tokens rotate between responses. -/
theorem token_bookkeeping {α : Type} (st : ScanState α) (r : Response α)
    (rest : List (Response α)) (hp : st.pending = r :: rest) :
    ((fetch st).2).scroll_id = r.scroll_id
    ∧ (∀ s, r.scroll_id = some s →
        ∃ tl, (fetch (fetch st).2).2.trace
          = (fetch st).2.trace ++ Event.scrollCall s :: tl)
    ∧ (∀ s, r.scroll_id = some s → s ≠ "" → st.clear_scroll = true →
        (clearOp (fetch st).2).2.trace
          = (fetch st).2.trace ++ [Event.clearScrollCall s]) := by
  have h1 : ((fetch st).2).scroll_id = r.scroll_id := by
    rw [fetch_scroll_id_any, hp]
    rfl
  refine ⟨h1, ?_, ?_⟩
  · intro s hs
    refine ⟨if ((fetch st).2.pending.headD (idleResponse α)).shards.successful
          < ((fetch st).2.pending.headD (idleResponse α)).shards.total
        then [Event.warning ((fetch st).2.pending.headD (idleResponse α)).shards.successful
                ((fetch st).2.pending.headD (idleResponse α)).shards.total]
        else [], ?_⟩
    rw [fetch_trace_any ((fetch st).2), h1, hs]
    simp [respEvents, fetchCallEvent]
  · intro s hs hne hcs
    have hcs2 : (fetch st).2.clear_scroll = st.clear_scroll := (fetch_frame st).2.1
    rw [clearOp_trace, h1, hs, hcs2, hcs]
    simp [clearTrace, hne]

theorem token_bookkeeping_witness :
    ((fetch exhaustionDemoInit).2).scroll_id = some "s1"
    ∧ (clearOp (fetch exhaustionDemoInit).2).2.trace
      = (fetch exhaustionDemoInit).2.trace ++ [Event.clearScrollCall "s1"] := by
  have h := token_bookkeeping exhaustionDemoInit (mkOkResp "s1" [1, 2])
    [mkOkResp "s2" [], mkOkResp "s3" []] rfl
  exact ⟨h.1, h.2.2 "s1" rfl (by decide) rfl⟩

/-- C10: when a fetch response omits the scroll token the stored token
becomes null: release becomes a no-op (no clear-scroll call and no
change of state), and the next empty-buffer produce-next issues the
initial search primitive again instead of a scroll-continue — the cursor
reverts to the fresh state. -/
theorem token_omitted_reverts {α : Type} (st : ScanState α) (r : Response α)
    (rest : List (Response α)) (hp : st.pending = r :: rest)
    (hnone : r.scroll_id = none) :
    ((fetch st).2).scroll_id = none
    ∧ clearOp (fetch st).2 = (false, (fetch st).2)
    ∧ (∃ tl, (fetch (fetch st).2).2.trace
        = (fetch st).2.trace ++ Event.searchCall :: tl) := by
  have h1 : ((fetch st).2).scroll_id = none := by
    rw [fetch_scroll_id_any, hp]
    simpa using hnone
  refine ⟨h1, clearOp_none _ h1, ?_⟩
  refine ⟨if ((fetch st).2.pending.headD (idleResponse α)).shards.successful
        < ((fetch st).2.pending.headD (idleResponse α)).shards.total
      then [Event.warning ((fetch st).2.pending.headD (idleResponse α)).shards.successful
              ((fetch st).2.pending.headD (idleResponse α)).shards.total]
      else [], ?_⟩
  rw [fetch_trace_any ((fetch st).2), h1]
  simp [respEvents, fetchCallEvent]

theorem token_omitted_reverts_witness :
    ((fetch tokenlessState).2).scroll_id = none
    ∧ clearOp (fetch tokenlessState).2 = (false, (fetch tokenlessState).2) := by
  have h := token_omitted_reverts tokenlessState
    { scroll_id := none, shards := { successful := 5, total := 5 }, hits := [9] }
    [] rfl rfl
  exact ⟨h.1, h.2.1⟩

/-- C8: construction performs no remote call (empty trace, untouched
pending responses, no token); with preserve-order false the cursor's
query is a copy of the caller's query (default empty) with a
sort-by-document-order clause merged in, overwriting any caller-supplied
sort while leaving every other key unchanged, and the caller's own
mapping is left unmodified; with preserve-order true the caller's query
value is used unmodified. -/
theorem construction_contract {α : Type} (query : Option Dict)
    (ro po cs : Bool) (pending : List (Response α)) (clears : List ClearBehavior) :
    (scanInit α query ro po cs pending clears).trace = []
    ∧ (scanInit α query ro po cs pending clears).pending = pending
    ∧ (scanInit α query ro po cs pending clears).scroll_id = none
    ∧ dictGet (mkQuery false query).1 "sort" = some "_doc"
    ∧ (∀ k, k ≠ "sort" → dictGet (mkQuery false query).1 k = dictGet (query.getD []) k)
    ∧ (mkQuery false query).2 = query
    ∧ (mkQuery true query).1 = query.getD []
    ∧ (mkQuery true query).2 = query := by
  refine ⟨rfl, rfl, rfl, ?_, ?_, ?_, ?_, rfl⟩
  · match query with
    | none => simpa [mkQuery] using dictGet_dictSet_self [] "sort" "_doc"
    | some d =>
        by_cases hd : d.isEmpty
        · simpa [mkQuery, hd] using dictGet_dictSet_self [] "sort" "_doc"
        · simpa [mkQuery, hd] using dictGet_dictSet_self d "sort" "_doc"
  · intro k hk
    match query with
    | none => simpa [mkQuery] using dictGet_dictSet_ne [] "sort" "_doc" k hk
    | some d =>
        by_cases hd : d.isEmpty
        · have hdnil : d = [] := by simpa using hd
          simp only [mkQuery, hd, hdnil]
          simpa using dictGet_dictSet_ne [] "sort" "_doc" k hk
        · simp only [mkQuery, hd]
          simpa [hd] using dictGet_dictSet_ne d "sort" "_doc" k hk
  · match query with
    | none => rfl
    | some d =>
        by_cases hd : d.isEmpty
        · have hdnil : d = [] := by simpa using hd
          simp [mkQuery, hd, hdnil]
        · simp [mkQuery, hd]
  · match query with
    | none => rfl
    | some d =>
        by_cases hd : d.isEmpty
        · have hdnil : d = [] := by simpa using hd
          simp [mkQuery, hd, hdnil]
        · simp [mkQuery, hd]

theorem construction_contract_witness :
    dictGet (mkQuery false (some [("a", "1"), ("sort", "x")])).1 "a"
      = dictGet ((some [("a", "1"), ("sort", "x")] : Option Dict).getD []) "a"
    ∧ dictGet (mkQuery false (some [("a", "1"), ("sort", "x")])).1 "sort"
      = some "_doc"
    ∧ (mkQuery false (some [("a", "1"), ("sort", "x")])).2
      = some [("a", "1"), ("sort", "x")] := by
  have h := construction_contract (α := Nat) (some [("a", "1"), ("sort", "x")])
    true false true [] []
  exact ⟨h.2.2.2.2.1 "a" (by decide), h.2.2.2.1, h.2.2.2.2.2.1⟩

/-- C1 counterexample: at `failedBatchState` (raise flag set, next
response reporting 4 of 5 shards successful with one hit in its batch)
the fetch raises the `ScanError` and leaves the buffer empty — the
batch's hit was not appended before the decision to raise, contradicting
the claimed buffer-first ordering. -/
theorem buffer_before_raise_refuted :
    (fetch failedBatchState).1
      = some { scroll_id := some "t1", message := scanErrorMessage 4 5 }
    ∧ (fetch failedBatchState).2.hits = [] := by
  constructor <;> rfl

/-- C1 amended: on a partially-failed fetch the new scroll token is
recorded first, but the decision to raise precedes the buffer append:
with the raise flag set the error (carrying the just-recorded token) is
raised and the batch's hits are discarded; only with the flag unset are
the hits appended and kept available to the caller. -/
theorem token_then_raise_then_buffer {α : Type} (st : ScanState α) (r : Response α)
    (rest : List (Response α)) (hp : st.pending = r :: rest)
    (hfail : r.shards.successful < r.shards.total) :
    ((fetch st).2).scroll_id = r.scroll_id
    ∧ (st.raise_on_error = true →
        (fetch st).1
          = some { scroll_id := r.scroll_id,
                   message := scanErrorMessage r.shards.successful r.shards.total }
        ∧ ((fetch st).2).hits = st.hits)
    ∧ (st.raise_on_error = false →
        (fetch st).1 = none ∧ ((fetch st).2).hits = st.hits ++ r.hits) := by
  refine ⟨?_, ?_, ?_⟩
  · rw [fetch_scroll_id_any, hp]
    rfl
  · intro hro
    have hf := fetch_raise st r rest hp hfail hro
    rw [hf]
    exact ⟨rfl, rfl⟩
  · intro hro
    have hf := fetch_noraise st r rest hp (fun _ => hro)
    rw [hf]
    exact ⟨rfl, rfl⟩

theorem token_then_raise_then_buffer_witness :
    ((fetch failedBatchState).2).scroll_id = some "t1"
    ∧ (fetch failedBatchState).1
      = some { scroll_id := some "t1", message := scanErrorMessage 4 5 }
    ∧ (fetch failedBatchState).2.hits = [] := by
  have h := token_then_raise_then_buffer failedBatchState
    { scroll_id := some "t1", shards := { successful := 4, total := 5 }, hits := [7] }
    [] rfl (by decide)
  exact ⟨h.1, (h.2.1 rfl).1, (h.2.1 rfl).2⟩

/-- C2: the iterator has no exhausted flag, so a produce-next call made
after the exhaustion signal performs another scroll-continue with the
retained token and another clear-scroll — additional remote calls —
before signalling exhaustion again, instead of yielding the exhaustion
signal without remote interaction. -/
theorem exhaustion_not_idempotent :
    (drive exhaustionDemoInit 3).map (fun p => (p.1, p.2.1))
      = some ([1, 2], NextResult.stop)
    ∧ (anext exhaustionDemoAfterStop).1 = NextResult.stop
    ∧ (anext exhaustionDemoAfterStop).2.trace
      = exhaustionDemoAfterStop.trace
        ++ [Event.scrollCall "s2", Event.clearScrollCall "s3"] := by
  refine ⟨rfl, rfl, rfl⟩

/-- C3 counterexample: at `failingClearState` the clear call issued while
handling the `ScanError` raises a transport failure which is not
swallowed: it surfaces to the caller in place of the original
`ScanError`, masking it. -/
theorem release_swallow_refuted :
    (anext failingClearState).1 = NextResult.transportError := by
  rfl

/-- C3 amended: release is a no-op when no token was ever issued or when
clear-on-finish is false; when it does issue the scroll-clear primitive,
a not-found outcome is treated as success; but any other transport
failure raised while clearing propagates — in particular, in the
`ScanError` path it surfaces in place of the original error, masking
it. -/
theorem release_contract {α : Type} (st : ScanState α) :
    (st.scroll_id = none → clearOp st = (false, st))
    ∧ (st.clear_scroll = false → clearOp st = (false, st))
    ∧ (∀ sid, st.scroll_id = some sid → sid ≠ "" → st.clear_scroll = true →
        st.clears.headD ClearBehavior.ok = ClearBehavior.notFound →
        clearOp st = (false,
          { st with clears := st.clears.tail,
                    trace := st.trace ++ [Event.clearScrollCall sid] }))
    ∧ (∀ sid, st.scroll_id = some sid → sid ≠ "" → st.clear_scroll = true →
        st.clears.headD ClearBehavior.ok = ClearBehavior.transportError →
        (clearOp st).1 = true)
    ∧ (∀ r rest s, st.pending = r :: rest → st.hits = [] →
        r.shards.successful < r.shards.total → st.raise_on_error = true →
        r.scroll_id = some s → s ≠ "" → st.clear_scroll = true →
        st.clears.headD ClearBehavior.ok = ClearBehavior.transportError →
        (anext st).1 = NextResult.transportError) := by
  refine ⟨clearOp_none st, clearOp_cs_false st, ?_, ?_, ?_⟩
  · intro sid hsid hne hcs h404
    rw [List.headD_eq_head?] at h404
    simp [clearOp, hsid, hne, hcs, h404]
  · intro sid hsid hne hcs hterr
    rw [List.headD_eq_head?] at hterr
    simp [clearOp, hsid, hne, hcs, hterr]
  · intro r rest s hp hbuf hfail hro hs hsne hcs hterr
    rw [List.headD_eq_head?] at hterr
    have hf := fetch_raise st r rest hp hfail hro
    set st1 : ScanState α :=
      { st with pending := rest, scroll_id := r.scroll_id,
                trace := st.trace ++ respEvents st.scroll_id r } with hst1
    have hb : (clearOp st1).1 = true := by
      rw [hst1]
      simp [clearOp, hs, hsne, hcs, hterr]
    rcases hcc : clearOp st1 with ⟨b, st2⟩
    rw [hcc] at hb
    simp only at hb
    subst hb
    simp [anext, hbuf, hf, hcc]

theorem release_contract_witness :
    clearOp freshClearState = (false, freshClearState)
    ∧ (anext failingClearState).1 = NextResult.transportError := by
  refine ⟨(release_contract freshClearState).1 rfl, ?_⟩
  exact (release_contract failingClearState).2.2.2.2
    { scroll_id := some "t1", shards := { successful := 4, total := 5 }, hits := [] }
    [] "t1" rfl rfl (by decide) rfl rfl (by decide) rfl (by decide)

end ScanModel
